import Mathlib

/-!
Verification of the ts-action-intention cryptographic envelope subsystem.

The development shallowly embeds the TypeScript sources:
* the Crypto class (hybrid RSA-OAEP + AES-GCM encryption, RSA-PSS signing),
* the LocalStorageKeyStore (persistence of JWK-exported key pairs),
* and, where the repository ships no implementation (the envelope
  orchestration service), a model written from the specification text,
  marked as such.

Bytes are modelled as natural numbers in lists; where byte-ness matters
(invertibility of the symmetric cipher) theorems carry explicit bounds.
The cryptographic primitives are modelled symbolically but executably:
RSA-OAEP wrapping is an injective fixed-width encoding that checks the
key identity on unwrap, AES-GCM is an invertible byte transformation
carrying a 16-byte tag recomputed on decryption, and an RSA-PSS signature
is an encoding of the signer identity together with the signed bytes.
-/

namespace ActionIntention

/-- Byte strings are lists of naturals; genuine bytes are below 256. -/
abbrev Bytes := List Nat

namespace Crypto

/-- Public half of an RSA key pair, identified by an abstract key id and
its modulus length in bits (the Web Crypto modulusLength parameter). -/
structure RsaPublicKey where
  keyId : Nat
  modulusBits : Nat
deriving DecidableEq, Repr

/-- Private half of an RSA key pair. -/
structure RsaPrivateKey where
  keyId : Nat
  modulusBits : Nat
deriving DecidableEq, Repr

/-- Byte width of the RSA modulus: modulusLength / 8 (256 for 2048 bits). -/
def pubModulusBytes (k : RsaPublicKey) : Nat := k.modulusBits / 8

/-- Byte width of the RSA modulus on the private side. -/
def privModulusBytes (k : RsaPrivateKey) : Nat := k.modulusBits / 8

/-- Embeds Crypto.generateEncryptionKeys: a fresh RSA-OAEP key pair with a
2048-bit modulus (rsaOaepKeyGenParams in crypto.ts). The abstract id
stands for the freshly drawn key material. -/
def generateEncryptionKeys (id : Nat) : RsaPublicKey × RsaPrivateKey :=
  (⟨id, 2048⟩, ⟨id, 2048⟩)

/-- Reads n bytes from a random byte source starting at offset s; the
source is the explicit stream of randomness the Web Crypto calls consume. -/
def bytesFrom (r : Nat → Nat) (s n : Nat) : Bytes :=
  (List.range n).map (fun i => r (s + i) % 256)

/-- Key/nonce dependent byte offset of the modelled AES-GCM keystream. -/
def mix (key iv : Bytes) : Nat := (key.sum + 3 * iv.sum + 7) % 256

/-- Modelled 16-byte AES-GCM authentication tag over key, nonce and data. -/
def gcmTag (key iv pt : Bytes) : Bytes :=
  List.replicate 16 ((key.sum + iv.sum + pt.sum) % 256)

/-- Embeds crypto.subtle.encrypt with AES-GCM: an invertible byte
transformation of the plaintext followed by the 16-byte tag. -/
def aesGcmEncrypt (key iv pt : Bytes) : Bytes :=
  pt.map (fun b => (b + mix key iv) % 256) ++ gcmTag key iv pt

/-- Embeds crypto.subtle.decrypt with AES-GCM: splits the trailing 16-byte
tag, inverts the byte transformation, recomputes and checks the tag.
Returns none when the tag does not verify (OperationError in Web Crypto). -/
def aesGcmDecrypt (key iv ct : Bytes) : Option Bytes :=
  if ct.length < 16 then none
  else if ct.drop (ct.length - 16) = gcmTag key iv
      ((ct.take (ct.length - 16)).map (fun b => (b + (256 - mix key iv)) % 256))
    then some ((ct.take (ct.length - 16)).map
      (fun b => (b + (256 - mix key iv)) % 256))
    else none

/-- Embeds crypto.subtle.importKey of raw AES key bytes: succeeds exactly
for the legal AES key widths. -/
def importAesKey (kb : Bytes) : Option Bytes :=
  if kb.length = 16 ∨ kb.length = 24 ∨ kb.length = 32 then some kb else none

/-- Embeds crypto.subtle.encrypt with RSA-OAEP/SHA-256: a fixed-width
encoding of the data under the key identity, padded with seed randomness
to exactly the modulus width; fails (throws, in Web Crypto) when the data
exceeds modulusBytes - 2*hashLen - 2 = modulusBytes - 66. -/
def rsaOaepEncrypt (pub : RsaPublicKey) (data seed : Bytes) : Option Bytes :=
  if data.length + 66 ≤ pubModulusBytes pub then
    some (pub.keyId :: data.length ::
      (data ++ (seed ++ List.replicate (pubModulusBytes pub) 0).take
        (pubModulusBytes pub - 2 - data.length)))
  else none

/-- Embeds crypto.subtle.decrypt with RSA-OAEP/SHA-256: checks the exact
modulus width and the key identity (the OAEP padding check, which fails
for a mismatched private key), then recovers the embedded data. -/
def rsaOaepDecrypt (priv : RsaPrivateKey) (ct : Bytes) : Option Bytes :=
  match ct with
  | kid :: len :: rest =>
    if ct.length = privModulusBytes priv ∧ kid = priv.keyId ∧
        len + 66 ≤ privModulusBytes priv ∧ len ≤ rest.length then
      some (rest.take len)
    else none
  | _ => none

/-- Failure kinds of the decryption path: which subtle call rejected. -/
inductive DecryptError where
  | keyUnwrapFailed
  | keyImportFailed
  | tagMismatch
deriving DecidableEq, Repr

/-- Embeds Crypto.encrypt (crypto.ts lines 318-341): generates a fresh
256-bit AES-GCM content key and a fresh 12-byte IV from the randomness
source, AES-GCM-encrypts the plaintext, RSA-OAEP-wraps the exported raw
key bytes, and returns the concatenation iv || wrappedKey || ciphertext.
Returns none when the RSA-OAEP wrap rejects (propagating the throw). -/
def encrypt (pub : RsaPublicKey) (plaintext : Bytes) (r : Nat → Nat) :
    Option Bytes :=
  match rsaOaepEncrypt pub (bytesFrom r 0 32) (bytesFrom r 44 256) with
  | none => none
  | some encryptedAesKey =>
    some (bytesFrom r 32 12 ++
      (encryptedAesKey ++
        aesGcmEncrypt (bytesFrom r 0 32) (bytesFrom r 32 12) plaintext))

/-- Embeds Crypto.decrypt (crypto.ts lines 349-371): fixed-offset parsing
(bytes 0..12 as IV, bytes 12..268 as wrapped key, rest as AES-GCM data),
RSA-OAEP unwrap, raw AES key import, AES-GCM decrypt; each subtle failure
maps to the distinct error of the call that rejected. -/
def decrypt (priv : RsaPrivateKey) (ciphertext : Bytes) :
    Except DecryptError Bytes :=
  match rsaOaepDecrypt priv ((ciphertext.drop 12).take 256) with
  | none => Except.error DecryptError.keyUnwrapFailed
  | some kb =>
    match importAesKey kb with
    | none => Except.error DecryptError.keyImportFailed
    | some k =>
      match aesGcmDecrypt k (ciphertext.take 12) (ciphertext.drop 268) with
      | none => Except.error DecryptError.tagMismatch
      | some pt => Except.ok pt

end Crypto

namespace KeyStore

/-- Web Crypto algorithm tag of a key object, as relevant to the store:
the RSA-OAEP encryption role or the RSA-PSS signing role. -/
inductive KeyAlgName where
  | rsaOaep
  | rsaPss
deriving DecidableEq, Repr

/-- A Web Crypto key object: algorithm name, public/private kind and the
abstract key material. -/
structure CryptoKey where
  name : KeyAlgName
  isPrivate : Bool
  material : Nat
deriving DecidableEq, Repr

/-- A Web Crypto key pair. -/
structure CryptoKeyPair where
  publicKey : CryptoKey
  privateKey : CryptoKey
deriving DecidableEq, Repr

/-- Embeds Crypto.generateEncryptionKeys at the key-object level: a fresh
RSA-OAEP pair. -/
def generateEncryptionKeys (id : Nat) : CryptoKeyPair :=
  ⟨⟨KeyAlgName.rsaOaep, false, id⟩, ⟨KeyAlgName.rsaOaep, true, id⟩⟩

/-- Embeds Crypto.generateSigningKeys at the key-object level: a fresh
RSA-PSS pair (crypto.ts lines 308-310). -/
def generateSigningKeys (id : Nat) : CryptoKeyPair :=
  ⟨⟨KeyAlgName.rsaPss, false, id⟩, ⟨KeyAlgName.rsaPss, true, id⟩⟩

/-- JWK alg header values produced by exporting the two key kinds with
SHA-256: RSA-OAEP-256 for encryption keys, PS256 for signing keys. -/
inductive JwkAlg where
  | rsaOaep256
  | ps256
deriving DecidableEq, Repr

/-- An exported JWK: its alg header, whether it carries the private
exponent, and the abstract key material. -/
structure Jwk where
  alg : JwkAlg
  hasPrivate : Bool
  material : Nat
deriving DecidableEq, Repr

/-- Embeds crypto.subtle.exportKey with format jwk. -/
def exportJwk (k : CryptoKey) : Jwk :=
  ⟨match k.name with
   | KeyAlgName.rsaOaep => JwkAlg.rsaOaep256
   | KeyAlgName.rsaPss => JwkAlg.ps256,
   k.isPrivate, k.material⟩

/-- Embeds crypto.subtle.importKey with format jwk and the fixed
parameters loadKeyPair always passes: algorithm RSA-OAEP with SHA-256 and
the usage list (encrypt for the public half, decrypt for the private
half). Import rejects a JWK whose alg header does not match RSA-OAEP-256
or whose key kind does not match the requested usage. -/
def importKeyRsaOaepSha256 (jwk : Jwk) (usageIsDecrypt : Bool) :
    Option CryptoKey :=
  if jwk.alg = JwkAlg.rsaOaep256 ∧ jwk.hasPrivate = usageIsDecrypt then
    some ⟨KeyAlgName.rsaOaep, jwk.hasPrivate, jwk.material⟩
  else none

/-- The JSON shape saveKeyPair writes: a public and a private JWK. -/
structure JwkKeyPair where
  publicKey : Jwk
  privateKey : Jwk
deriving DecidableEq, Repr

/-- A value held in localStorage under a key: either a string that parses
back into the stored JWK pair shape, or junk on which JSON.parse (or the
subsequent field access) fails. -/
inductive StoredValue where
  | record (pair : JwkKeyPair)
  | junk (s : String)
deriving DecidableEq, Repr

/-- The browser localStorage, as an association list from keys to stored
values. -/
abbrev LocalStorage := List (String × StoredValue)

/-- Embeds localStorage.getItem. -/
def getItem : LocalStorage → String → Option StoredValue
  | [], _ => none
  | (k2, v) :: t, key => if k2 = key then some v else getItem t key

/-- Embeds localStorage.removeItem. -/
def removeItem : LocalStorage → String → LocalStorage
  | [], _ => []
  | (k2, v) :: t, key =>
    if k2 = key then removeItem t key else (k2, v) :: removeItem t key

/-- Embeds localStorage.setItem: the key now maps to the new value. -/
def setItem (s : LocalStorage) (key : String) (v : StoredValue) :
    LocalStorage :=
  (key, v) :: removeItem s key

/-- The storage key used for a principal: crypto_keys_ followed by the
user id. -/
def storageKey (userId : String) : String := "crypto_keys_" ++ userId

/-- Embeds JSON.parse of a stored value against the saved JWK pair shape:
values written by saveKeyPair parse back, junk throws. -/
def parseStored : StoredValue → Option JwkKeyPair
  | StoredValue.record p => some p
  | StoredValue.junk _ => none

/-- The console.error message loadKeyPair emits on a corrupted record. -/
def corruptLog : String :=
  "Failed to load or parse stored key, treating as missing:"

/-- Embeds LocalStorageKeyStore.saveKeyPair: export both halves to JWK and
store them under the principal storage key as one JSON value. -/
def saveKeyPair (userId : String) (keyPair : CryptoKeyPair)
    (store : LocalStorage) : LocalStorage :=
  setItem store (storageKey userId)
    (StoredValue.record ⟨exportJwk keyPair.publicKey,
      exportJwk keyPair.privateKey⟩)

/-- What a loadKeyPair call returns and effects: the promise value, the
localStorage afterwards, and the console error log it emitted. -/
structure LoadResult where
  result : Option CryptoKeyPair
  store : LocalStorage
  log : List String
deriving DecidableEq, Repr

/-- Embeds LocalStorageKeyStore.loadKeyPair (lines 23-54): absent record
gives null; then JSON.parse, import of the public JWK with fixed
RSA-OAEP/SHA-256 and usage encrypt, import of the private JWK with usage
decrypt; any failure is caught, logged, the record is removed and null is
returned. -/
def loadKeyPair (userId : String) (store : LocalStorage) : LoadResult :=
  match getItem store (storageKey userId) with
  | none => ⟨none, store, []⟩
  | some sv =>
    match parseStored sv with
    | none => ⟨none, removeItem store (storageKey userId), [corruptLog]⟩
    | some jp =>
      match importKeyRsaOaepSha256 jp.publicKey false with
      | none => ⟨none, removeItem store (storageKey userId), [corruptLog]⟩
      | some pk =>
        match importKeyRsaOaepSha256 jp.privateKey true with
        | none => ⟨none, removeItem store (storageKey userId), [corruptLog]⟩
        | some sk => ⟨some ⟨pk, sk⟩, store, []⟩

/-- Embeds LocalStorageKeyStore.deleteKeyPair. -/
def deleteKeyPair (userId : String) (store : LocalStorage) : LocalStorage :=
  removeItem store (storageKey userId)

/-- Whether a stored value would survive parse and both imports. -/
def recordImports (sv : StoredValue) : Bool :=
  match parseStored sv with
  | none => false
  | some jp =>
    (importKeyRsaOaepSha256 jp.publicKey false).isSome &&
      (importKeyRsaOaepSha256 jp.privateKey true).isSome

end KeyStore

namespace EnvelopeService

/-- Modelled from the spec: the repository ships no Envelope Service; the
spec section 4.4 and section 6 define sealEnvelope, openEnvelope, the
envelope record and its length-prefixed canonical bytes, modelled here.
This is the 4-byte big-endian length of a field. -/
def be32 (n : Nat) : Bytes :=
  [n / 2 ^ 24 % 256, n / 2 ^ 16 % 256, n / 2 ^ 8 % 256, n % 256]

/-- Modelled from the spec: a variable-length field on the wire, its
4-byte big-endian length followed by its bytes. -/
def framed (f : Bytes) : Bytes := be32 f.length ++ f

/-- Modelled from the spec: the Envelope record of section 3 — sender,
recipient and message identities, wrapped key, nonce, ciphertext and the
detached signature. -/
structure Envelope where
  senderId : Bytes
  recipientId : Bytes
  messageId : Bytes
  wrappedKey : Bytes
  nonce : Bytes
  ciphertext : Bytes
  signature : Bytes
deriving DecidableEq, Repr

/-- Modelled from the spec: canonical bytes of an envelope — the
concatenation of senderId, recipientId, messageId, wrappedKey, nonce and
ciphertext in that fixed order, each with its explicit length, the
signature excluded. -/
def canonicalBytes (e : Envelope) : Bytes :=
  framed e.senderId ++ (framed e.recipientId ++ (framed e.messageId ++
    (framed e.wrappedKey ++ (framed e.nonce ++ framed e.ciphertext))))

/-- Modelled from the spec: the RSA-PSS detached signature, symbolically
an encoding binding the signing key identity to the signed bytes. -/
def sign (signingKeyId : Nat) (data : Bytes) : Bytes :=
  signingKeyId :: data

/-- Modelled from the spec: signature checking — the boolean outcome of
matching a signature against a verification key and the canonical bytes,
never an error. -/
def verify (verifyKeyId : Nat) (signature data : Bytes) : Bool :=
  decide (signature = verifyKeyId :: data)

/-- Modelled from the spec: sealEnvelope (section 4.4) — run the cipher
engine (fresh content key and nonce from the randomness source, AES-GCM
payload, RSA-OAEP key wrap), then sign the canonical bytes and assemble
the envelope. -/
def sealEnvelope (plaintext senderId recipientId messageId : Bytes)
    (recipientPub : Crypto.RsaPublicKey) (senderSigningKeyId : Nat)
    (r : Nat → Nat) : Option Envelope :=
  match Crypto.rsaOaepEncrypt recipientPub (Crypto.bytesFrom r 0 32)
      (Crypto.bytesFrom r 44 256) with
  | none => none
  | some wk =>
    some ⟨senderId, recipientId, messageId, wk, Crypto.bytesFrom r 32 12,
      Crypto.aesGcmEncrypt (Crypto.bytesFrom r 0 32)
        (Crypto.bytesFrom r 32 12) plaintext,
      sign senderSigningKeyId (canonicalBytes
        ⟨senderId, recipientId, messageId, wk, Crypto.bytesFrom r 32 12,
         Crypto.aesGcmEncrypt (Crypto.bytesFrom r 0 32)
           (Crypto.bytesFrom r 32 12) plaintext, []⟩)⟩

/-- Outcome of openEnvelope: plaintext, or the authentication failure of
section 4.4, or a decryption failure of section 4.2. -/
inductive OpenResult where
  | ok (plaintext : Bytes)
  | authenticationFailed
  | decryptionFailed (e : Crypto.DecryptError)
deriving DecidableEq, Repr

/-- Modelled from the spec: openEnvelope (section 4.4) — verify the
signature over the canonical bytes first; on failure return
AuthenticationFailed without attempting decryption; only on success
unwrap the content key and AEAD-decrypt. The boolean of the pair records
whether any decryption operation was attempted. -/
def openEnvelope (e : Envelope) (recipientPriv : Crypto.RsaPrivateKey)
    (senderVerifyKeyId : Nat) : OpenResult × Bool :=
  if verify senderVerifyKeyId e.signature (canonicalBytes e) then
    match Crypto.rsaOaepDecrypt recipientPriv e.wrappedKey with
    | none => (OpenResult.decryptionFailed Crypto.DecryptError.keyUnwrapFailed,
        true)
    | some contentKey =>
      match Crypto.aesGcmDecrypt contentKey e.nonce e.ciphertext with
      | none => (OpenResult.decryptionFailed Crypto.DecryptError.tagMismatch,
          true)
      | some pt => (OpenResult.ok pt, true)
  else (OpenResult.authenticationFailed, false)

/-- The envelope fields the tamper-detection claim covers: senderId,
recipientId, wrappedKey, nonce and ciphertext. -/
inductive CoveredField where
  | senderId
  | recipientId
  | wrappedKey
  | nonce
  | ciphertext
deriving DecidableEq, Repr

/-- Projection of a covered field out of an envelope. -/
def coveredField (e : Envelope) : CoveredField → Bytes
  | CoveredField.senderId => e.senderId
  | CoveredField.recipientId => e.recipientId
  | CoveredField.wrappedKey => e.wrappedKey
  | CoveredField.nonce => e.nonce
  | CoveredField.ciphertext => e.ciphertext

/-- Replacing byte i of one covered field with v, after sealing. -/
def setCovered (e : Envelope) (f : CoveredField) (i v : Nat) : Envelope :=
  match f with
  | CoveredField.senderId => { e with senderId := e.senderId.set i v }
  | CoveredField.recipientId =>
    { e with recipientId := e.recipientId.set i v }
  | CoveredField.wrappedKey => { e with wrappedKey := e.wrappedKey.set i v }
  | CoveredField.nonce => { e with nonce := e.nonce.set i v }
  | CoveredField.ciphertext => { e with ciphertext := e.ciphertext.set i v }

end EnvelopeService

end ActionIntention

namespace ActionIntention

namespace Crypto

lemma bytesFrom_length (r : Nat → Nat) (s n : Nat) :
    (bytesFrom r s n).length = n := by
  simp [bytesFrom]

lemma bytesFrom_lt (r : Nat → Nat) (s n : Nat) :
    ∀ b ∈ bytesFrom r s n, b < 256 := by
  intro b hb
  simp only [bytesFrom, List.mem_map] at hb
  obtain ⟨i, _, rfl⟩ := hb
  exact Nat.mod_lt _ (by norm_num)

lemma mix_lt (key iv : Bytes) : mix key iv < 256 :=
  Nat.mod_lt _ (by norm_num)

lemma gcmTag_length (key iv pt : Bytes) : (gcmTag key iv pt).length = 16 := by
  simp [gcmTag]

lemma aesGcmEncrypt_length (key iv pt : Bytes) :
    (aesGcmEncrypt key iv pt).length = pt.length + 16 := by
  simp [aesGcmEncrypt, gcmTag]

lemma map_unmix (key iv : Bytes) (pt : Bytes) (hb : ∀ b ∈ pt, b < 256) :
    (pt.map (fun b => (b + mix key iv) % 256)).map
      (fun b => (b + (256 - mix key iv)) % 256) = pt := by
  rw [List.map_map]
  have hm := mix_lt key iv
  induction pt with
  | nil => rfl
  | cons a t ih =>
    have ha : a < 256 := hb a (by simp)
    have ht : ∀ b ∈ t, b < 256 := fun b h => hb b (by simp [h])
    simp only [List.map_cons, Function.comp_apply, ih ht, List.cons.injEq,
      and_true]
    rw [Nat.mod_add_mod]
    have : a + mix key iv + (256 - mix key iv) = a + 256 := by omega
    rw [this, Nat.add_mod_right, Nat.mod_eq_of_lt ha]

lemma aesGcm_round_trip (key iv pt : Bytes) (hb : ∀ b ∈ pt, b < 256) :
    aesGcmDecrypt key iv (aesGcmEncrypt key iv pt) = some pt := by
  have hlen := aesGcmEncrypt_length key iv pt
  have hbody : (aesGcmEncrypt key iv pt).take (pt.length + 16 - 16) =
      pt.map (fun b => (b + mix key iv) % 256) := by
    rw [Nat.add_sub_cancel]
    unfold aesGcmEncrypt
    have h2 : pt.length = (pt.map (fun b => (b + mix key iv) % 256)).length := by
      simp
    rw [h2, List.take_left]
  have htag : (aesGcmEncrypt key iv pt).drop (pt.length + 16 - 16) =
      gcmTag key iv pt := by
    rw [Nat.add_sub_cancel]
    unfold aesGcmEncrypt
    have h2 : pt.length = (pt.map (fun b => (b + mix key iv) % 256)).length := by
      simp
    rw [h2, List.drop_left]
  unfold aesGcmDecrypt
  rw [hlen, if_neg (by omega), hbody, htag, map_unmix key iv pt hb, if_pos rfl]

lemma rsaOaepEncrypt_length (pub : RsaPublicKey) (data seed wk : Bytes)
    (h : rsaOaepEncrypt pub data seed = some wk) :
    wk.length = pubModulusBytes pub := by
  unfold rsaOaepEncrypt at h
  by_cases hc : data.length + 66 ≤ pubModulusBytes pub
  · simp only [hc, if_true, Option.some.injEq] at h
    subst h
    simp only [List.length_cons, List.length_append, List.length_take,
      List.length_replicate]
    omega
  · simp [hc] at h

lemma rsaOaep_round_trip (id m : Nat) (data seed wk : Bytes)
    (h : rsaOaepEncrypt ⟨id, m⟩ data seed = some wk) :
    rsaOaepDecrypt ⟨id, m⟩ wk = some data := by
  have hlen := rsaOaepEncrypt_length _ _ _ _ h
  unfold rsaOaepEncrypt at h
  by_cases hc : data.length + 66 ≤ pubModulusBytes ⟨id, m⟩
  · simp only [hc, if_true, Option.some.injEq] at h
    subst h
    unfold rsaOaepDecrypt
    simp only [privModulusBytes, pubModulusBytes] at hc hlen ⊢
    have hrest : (data ++ (seed ++ List.replicate (m / 8) 0).take
        (m / 8 - 2 - data.length)).length = m / 8 - 2 := by
      simp only [List.length_append, List.length_take, List.length_replicate]
      omega
    have hcond : data.length ≤ (data ++ (seed ++ List.replicate (m / 8) 0).take
        (m / 8 - 2 - data.length)).length := by omega
    rw [if_pos ⟨hlen, by trivial, hc, hcond⟩]
    congr 1
    exact List.take_left data _
  · simp [hc] at h

lemma parse_concat (iv wk ed : Bytes) (hiv : iv.length = 12)
    (hwk : wk.length = 256) :
    (iv ++ (wk ++ ed)).take 12 = iv ∧
      ((iv ++ (wk ++ ed)).drop 12).take 256 = wk ∧
      (iv ++ (wk ++ ed)).drop 268 = ed := by
  have hdrop12 : (iv ++ (wk ++ ed)).drop 12 = wk ++ ed := by
    rw [← hiv, List.drop_left]
  refine ⟨?_, ?_, ?_⟩
  · rw [← hiv, List.take_left]
  · rw [hdrop12, ← hwk, List.take_left]
  · have h268 : (iv ++ (wk ++ ed)).drop 268 =
        ((iv ++ (wk ++ ed)).drop 12).drop 256 := by
      rw [List.drop_drop]
    rw [h268, hdrop12, ← hwk, List.drop_left]

lemma encrypt_wrap_some (id : Nat) (r : Nat → Nat) :
    ∃ wk, rsaOaepEncrypt ⟨id, 2048⟩ (bytesFrom r 0 32) (bytesFrom r 44 256) =
      some wk := by
  have hcond : (bytesFrom r 0 32).length + 66 ≤ pubModulusBytes ⟨id, 2048⟩ := by
    rw [bytesFrom_length]
    norm_num [pubModulusBytes]
  exact ⟨_, by unfold rsaOaepEncrypt; rw [if_pos hcond]⟩

lemma importAesKey_content (r : Nat → Nat) :
    importAesKey (bytesFrom r 0 32) = some (bytesFrom r 0 32) := by
  unfold importAesKey
  rw [if_pos (Or.inr (Or.inr (bytesFrom_length r 0 32)))]

lemma generateEncryptionKeys_fst (id : Nat) :
    (generateEncryptionKeys id).1 = ⟨id, 2048⟩ := rfl

lemma generateEncryptionKeys_snd (id : Nat) :
    (generateEncryptionKeys id).2 = ⟨id, 2048⟩ := rfl

lemma encrypt_of_wrap (pub : RsaPublicKey) (p : Bytes) (r : Nat → Nat)
    (wk : Bytes)
    (h : rsaOaepEncrypt pub (bytesFrom r 0 32) (bytesFrom r 44 256) = some wk) :
    encrypt pub p r = some (bytesFrom r 32 12 ++
      (wk ++ aesGcmEncrypt (bytesFrom r 0 32) (bytesFrom r 32 12) p)) := by
  unfold encrypt
  rw [h]

lemma decrypt_of_parts (priv : RsaPrivateKey) (ct iv wk ed kb pt : Bytes)
    (h1 : ct.take 12 = iv) (h2 : (ct.drop 12).take 256 = wk)
    (h3 : ct.drop 268 = ed) (h4 : rsaOaepDecrypt priv wk = some kb)
    (h5 : importAesKey kb = some kb) (h6 : aesGcmDecrypt kb iv ed = some pt) :
    decrypt priv ct = Except.ok pt := by
  unfold decrypt
  rw [h2, h1, h3, h4]
  simp only [h5, h6]

lemma encrypt_decrypt_round (id : Nat) (p : Bytes) (r : Nat → Nat)
    (hp : ∀ b ∈ p, b < 256) :
    ∃ ct, encrypt (generateEncryptionKeys id).1 p r = some ct ∧
      decrypt (generateEncryptionKeys id).2 ct = Except.ok p := by
  obtain ⟨wk, hwk⟩ := encrypt_wrap_some id r
  have hwklen : wk.length = 256 := by
    have h2 := rsaOaepEncrypt_length ⟨id, 2048⟩ (bytesFrom r 0 32)
      (bytesFrom r 44 256) wk hwk
    rw [h2]
    norm_num [pubModulusBytes]
  obtain ⟨hp1, hp2, hp3⟩ := parse_concat (bytesFrom r 32 12) wk
    (aesGcmEncrypt (bytesFrom r 0 32) (bytesFrom r 32 12) p)
    (bytesFrom_length r 32 12) hwklen
  refine ⟨bytesFrom r 32 12 ++
    (wk ++ aesGcmEncrypt (bytesFrom r 0 32) (bytesFrom r 32 12) p), ?_, ?_⟩
  · rw [generateEncryptionKeys_fst]
    exact encrypt_of_wrap ⟨id, 2048⟩ p r wk hwk
  · rw [generateEncryptionKeys_snd]
    exact decrypt_of_parts ⟨id, 2048⟩
      (bytesFrom r 32 12 ++
        (wk ++ aesGcmEncrypt (bytesFrom r 0 32) (bytesFrom r 32 12) p))
      (bytesFrom r 32 12) wk
      (aesGcmEncrypt (bytesFrom r 0 32) (bytesFrom r 32 12) p)
      (bytesFrom r 0 32) p hp1 hp2 hp3
      (rsaOaep_round_trip id 2048 (bytesFrom r 0 32) (bytesFrom r 44 256) wk
        hwk)
      (importAesKey_content r)
      (aesGcm_round_trip (bytesFrom r 0 32) (bytesFrom r 32 12) p hp)

lemma rsaOaepEncrypt_inj_data (pub : RsaPublicKey) (d1 d2 s1 s2 w1 w2 : Bytes)
    (hlen : d1.length = d2.length)
    (h1 : rsaOaepEncrypt pub d1 s1 = some w1)
    (h2 : rsaOaepEncrypt pub d2 s2 = some w2)
    (hw : w1 = w2) : d1 = d2 := by
  unfold rsaOaepEncrypt at h1 h2
  by_cases hc1 : d1.length + 66 ≤ pubModulusBytes pub
  · by_cases hc2 : d2.length + 66 ≤ pubModulusBytes pub
    · rw [if_pos hc1, Option.some.injEq] at h1
      rw [if_pos hc2, Option.some.injEq] at h2
      rw [← h1, ← h2] at hw
      have happ := (List.cons.injEq _ _ _ _).mp hw
      have htail := (List.cons.injEq _ _ _ _).mp happ.2
      exact (List.append_inj htail.2 hlen).1
    · rw [if_neg hc2] at h2
      simp at h2
  · rw [if_neg hc1] at h1
    simp at h1

lemma rsaOaepDecrypt_wrong_key (pub : RsaPublicKey) (priv : RsaPrivateKey)
    (d s w : Bytes) (h : rsaOaepEncrypt pub d s = some w)
    (hne : pub.keyId ≠ priv.keyId) :
    rsaOaepDecrypt priv w = none := by
  unfold rsaOaepEncrypt at h
  by_cases hc : d.length + 66 ≤ pubModulusBytes pub
  · rw [if_pos hc, Option.some.injEq] at h
    rw [← h]
    simp only [rsaOaepDecrypt]
    rw [if_neg]
    intro hcond
    exact hne hcond.2.1
  · rw [if_neg hc] at h
    simp at h

lemma decrypt_unwrap_failure (priv : RsaPrivateKey) (ct wk : Bytes)
    (h2 : (ct.drop 12).take 256 = wk) (h4 : rsaOaepDecrypt priv wk = none) :
    decrypt priv ct = Except.error DecryptError.keyUnwrapFailed := by
  unfold decrypt
  rw [h2, h4]

end Crypto

/-- C1: for every plaintext (of genuine bytes), every key pair produced by
generateEncryptionKeys, and every randomness source consumed by encrypt,
decrypting the output of encryption with the matching private key returns
the original plaintext: Crypto.decrypt(privateKey, Crypto.encrypt(publicKey,
P)) = P. -/
theorem c1_encrypt_decrypt_round_trip (id : Nat) (p : Bytes)
    (r : Nat → Nat) (hp : ∀ b ∈ p, b < 256) :
    ∃ ct, Crypto.encrypt (Crypto.generateEncryptionKeys id).1 p r = some ct ∧
      Crypto.decrypt (Crypto.generateEncryptionKeys id).2 ct = Except.ok p :=
  Crypto.encrypt_decrypt_round id p r hp

/-- Witness for C1 at a concrete plaintext, key id and randomness source. -/
theorem c1_witness :
    ∃ ct, Crypto.encrypt (Crypto.generateEncryptionKeys 5).1 [104, 105]
        (fun i => i + 3) = some ct ∧
      Crypto.decrypt (Crypto.generateEncryptionKeys 5).2 ct =
        Except.ok [104, 105] :=
  c1_encrypt_decrypt_round_trip 5 [104, 105] (fun i => i + 3) (by decide)

/-- C4: two calls of encrypt with the same plaintext and the same recipient
public key, whose randomness sources draw different nonce bytes and
different content-key bytes, produce envelopes whose nonce fields differ
and whose wrapped-key fields differ (content key and nonce are drawn fresh
from the randomness consumed by each call). -/
theorem c4_fresh_nonce_and_wrapped_key (id : Nat) (p : Bytes)
    (r1 r2 : Nat → Nat)
    (hnonce : Crypto.bytesFrom r1 32 12 ≠ Crypto.bytesFrom r2 32 12)
    (hkey : Crypto.bytesFrom r1 0 32 ≠ Crypto.bytesFrom r2 0 32) :
    ∃ ct1 ct2,
      Crypto.encrypt (Crypto.generateEncryptionKeys id).1 p r1 = some ct1 ∧
      Crypto.encrypt (Crypto.generateEncryptionKeys id).1 p r2 = some ct2 ∧
      ct1.take 12 ≠ ct2.take 12 ∧
      (ct1.drop 12).take 256 ≠ (ct2.drop 12).take 256 := by
  obtain ⟨wk1, hwk1⟩ := Crypto.encrypt_wrap_some id r1
  obtain ⟨wk2, hwk2⟩ := Crypto.encrypt_wrap_some id r2
  have hl1 : wk1.length = 256 := by
    have h2 := Crypto.rsaOaepEncrypt_length ⟨id, 2048⟩ (Crypto.bytesFrom r1 0 32)
      (Crypto.bytesFrom r1 44 256) wk1 hwk1
    rw [h2]
    norm_num [Crypto.pubModulusBytes]
  have hl2 : wk2.length = 256 := by
    have h2 := Crypto.rsaOaepEncrypt_length ⟨id, 2048⟩ (Crypto.bytesFrom r2 0 32)
      (Crypto.bytesFrom r2 44 256) wk2 hwk2
    rw [h2]
    norm_num [Crypto.pubModulusBytes]
  obtain ⟨ha1, ha2, _⟩ := Crypto.parse_concat (Crypto.bytesFrom r1 32 12) wk1
    (Crypto.aesGcmEncrypt (Crypto.bytesFrom r1 0 32) (Crypto.bytesFrom r1 32 12) p)
    (Crypto.bytesFrom_length r1 32 12) hl1
  obtain ⟨hb1, hb2, _⟩ := Crypto.parse_concat (Crypto.bytesFrom r2 32 12) wk2
    (Crypto.aesGcmEncrypt (Crypto.bytesFrom r2 0 32) (Crypto.bytesFrom r2 32 12) p)
    (Crypto.bytesFrom_length r2 32 12) hl2
  refine ⟨Crypto.bytesFrom r1 32 12 ++
    (wk1 ++ Crypto.aesGcmEncrypt (Crypto.bytesFrom r1 0 32)
      (Crypto.bytesFrom r1 32 12) p),
    Crypto.bytesFrom r2 32 12 ++
    (wk2 ++ Crypto.aesGcmEncrypt (Crypto.bytesFrom r2 0 32)
      (Crypto.bytesFrom r2 32 12) p), ?_, ?_, ?_, ?_⟩
  · rw [Crypto.generateEncryptionKeys_fst]
    exact Crypto.encrypt_of_wrap ⟨id, 2048⟩ p r1 wk1 hwk1
  · rw [Crypto.generateEncryptionKeys_fst]
    exact Crypto.encrypt_of_wrap ⟨id, 2048⟩ p r2 wk2 hwk2
  · rw [ha1, hb1]
    exact hnonce
  · rw [ha2, hb2]
    intro he
    exact hkey (Crypto.rsaOaepEncrypt_inj_data ⟨id, 2048⟩
      (Crypto.bytesFrom r1 0 32) (Crypto.bytesFrom r2 0 32)
      (Crypto.bytesFrom r1 44 256) (Crypto.bytesFrom r2 44 256) wk1 wk2
      (by rw [Crypto.bytesFrom_length, Crypto.bytesFrom_length]) hwk1 hwk2 he)

/-- Witness for C4 at two concrete randomness sources that draw different
nonces and different content keys. -/
theorem c4_witness :
    ∃ ct1 ct2,
      Crypto.encrypt (Crypto.generateEncryptionKeys 0).1 [9]
        (fun _ => 0) = some ct1 ∧
      Crypto.encrypt (Crypto.generateEncryptionKeys 0).1 [9]
        (fun _ => 1) = some ct2 ∧
      ct1.take 12 ≠ ct2.take 12 ∧
      (ct1.drop 12).take 256 ≠ (ct2.drop 12).take 256 :=
  c4_fresh_nonce_and_wrapped_key 0 [9] (fun _ => 0) (fun _ => 1)
    (by decide) (by decide)

/-- C5: each call of encrypt draws a fresh 32-byte (256-bit) content key
and a fresh 12-byte (96-bit) nonce from its randomness source, encrypts
the plaintext under them with the tag-carrying AES-GCM mode (ciphertext is
the transformed payload followed by the 16-byte tag), wraps the raw
content-key bytes under the recipient RSA-OAEP public key, and returns
exactly nonce, wrapped key and ciphertext; the raw content key equals
neither the nonce field nor the wrapped-key field of the output. -/
theorem c5_encrypt_structure (id : Nat) (p : Bytes) (r : Nat → Nat) :
    ∃ wk,
      Crypto.rsaOaepEncrypt ⟨id, 2048⟩ (Crypto.bytesFrom r 0 32)
        (Crypto.bytesFrom r 44 256) = some wk ∧
      Crypto.encrypt (Crypto.generateEncryptionKeys id).1 p r =
        some (Crypto.bytesFrom r 32 12 ++
          (wk ++ Crypto.aesGcmEncrypt (Crypto.bytesFrom r 0 32)
            (Crypto.bytesFrom r 32 12) p)) ∧
      (Crypto.bytesFrom r 0 32).length = 32 ∧
      (Crypto.bytesFrom r 32 12).length = 12 ∧
      (Crypto.aesGcmEncrypt (Crypto.bytesFrom r 0 32)
        (Crypto.bytesFrom r 32 12) p).length = p.length + 16 ∧
      (Crypto.aesGcmEncrypt (Crypto.bytesFrom r 0 32)
        (Crypto.bytesFrom r 32 12) p).drop p.length =
        Crypto.gcmTag (Crypto.bytesFrom r 0 32) (Crypto.bytesFrom r 32 12) p ∧
      wk ≠ Crypto.bytesFrom r 0 32 ∧
      Crypto.bytesFrom r 32 12 ≠ Crypto.bytesFrom r 0 32 := by
  obtain ⟨wk, hwk⟩ := Crypto.encrypt_wrap_some id r
  have hwklen : wk.length = 256 := by
    have h2 := Crypto.rsaOaepEncrypt_length ⟨id, 2048⟩ (Crypto.bytesFrom r 0 32)
      (Crypto.bytesFrom r 44 256) wk hwk
    rw [h2]
    norm_num [Crypto.pubModulusBytes]
  refine ⟨wk, hwk, ?_, Crypto.bytesFrom_length r 0 32,
    Crypto.bytesFrom_length r 32 12,
    Crypto.aesGcmEncrypt_length (Crypto.bytesFrom r 0 32)
      (Crypto.bytesFrom r 32 12) p, ?_, ?_, ?_⟩
  · rw [Crypto.generateEncryptionKeys_fst]
    exact Crypto.encrypt_of_wrap ⟨id, 2048⟩ p r wk hwk
  · unfold Crypto.aesGcmEncrypt
    have h2 : p.length = (p.map
        (fun b => (b + Crypto.mix (Crypto.bytesFrom r 0 32)
          (Crypto.bytesFrom r 32 12)) % 256)).length := by
      simp
    rw [h2, List.drop_left]
  · intro he
    have h2 := congrArg List.length he
    rw [hwklen, Crypto.bytesFrom_length] at h2
    omega
  · intro he
    have h2 := congrArg List.length he
    rw [Crypto.bytesFrom_length, Crypto.bytesFrom_length] at h2
    omega

/-- C6: an envelope sealed under one generated key pair and decrypted with
the private key of a different generated key pair fails closed: the RSA
unwrap rejects, decrypt returns the KeyUnwrapFailed error (one of the two
failure kinds the claim allows) and never returns any plaintext. -/
theorem c6_wrong_key_rejection (id1 id2 : Nat) (p : Bytes) (r : Nat → Nat)
    (hne : id1 ≠ id2) :
    ∃ ct, Crypto.encrypt (Crypto.generateEncryptionKeys id1).1 p r = some ct ∧
      (Crypto.decrypt (Crypto.generateEncryptionKeys id2).2 ct =
          Except.error Crypto.DecryptError.keyUnwrapFailed ∨
        Crypto.decrypt (Crypto.generateEncryptionKeys id2).2 ct =
          Except.error Crypto.DecryptError.tagMismatch) ∧
      ∀ pt, Crypto.decrypt (Crypto.generateEncryptionKeys id2).2 ct ≠
        Except.ok pt := by
  obtain ⟨wk, hwk⟩ := Crypto.encrypt_wrap_some id1 r
  have hwklen : wk.length = 256 := by
    have h2 := Crypto.rsaOaepEncrypt_length ⟨id1, 2048⟩
      (Crypto.bytesFrom r 0 32) (Crypto.bytesFrom r 44 256) wk hwk
    rw [h2]
    norm_num [Crypto.pubModulusBytes]
  obtain ⟨hp1, hp2, hp3⟩ := Crypto.parse_concat (Crypto.bytesFrom r 32 12) wk
    (Crypto.aesGcmEncrypt (Crypto.bytesFrom r 0 32) (Crypto.bytesFrom r 32 12) p)
    (Crypto.bytesFrom_length r 32 12) hwklen
  have herr : Crypto.decrypt ⟨id2, 2048⟩
      (Crypto.bytesFrom r 32 12 ++
        (wk ++ Crypto.aesGcmEncrypt (Crypto.bytesFrom r 0 32)
          (Crypto.bytesFrom r 32 12) p)) =
      Except.error Crypto.DecryptError.keyUnwrapFailed :=
    Crypto.decrypt_unwrap_failure ⟨id2, 2048⟩ _ wk hp2
      (Crypto.rsaOaepDecrypt_wrong_key ⟨id1, 2048⟩ ⟨id2, 2048⟩
        (Crypto.bytesFrom r 0 32) (Crypto.bytesFrom r 44 256) wk hwk hne)
  refine ⟨Crypto.bytesFrom r 32 12 ++
    (wk ++ Crypto.aesGcmEncrypt (Crypto.bytesFrom r 0 32)
      (Crypto.bytesFrom r 32 12) p), ?_, ?_, ?_⟩
  · rw [Crypto.generateEncryptionKeys_fst]
    exact Crypto.encrypt_of_wrap ⟨id1, 2048⟩ p r wk hwk
  · rw [Crypto.generateEncryptionKeys_snd, herr]
    exact Or.inl rfl
  · intro pt
    rw [Crypto.generateEncryptionKeys_snd, herr]
    simp

/-- Witness for C6 at two concrete distinct key ids. -/
theorem c6_witness :
    ∃ ct, Crypto.encrypt (Crypto.generateEncryptionKeys 0).1 [1, 2]
        (fun _ => 0) = some ct ∧
      (Crypto.decrypt (Crypto.generateEncryptionKeys 1).2 ct =
          Except.error Crypto.DecryptError.keyUnwrapFailed ∨
        Crypto.decrypt (Crypto.generateEncryptionKeys 1).2 ct =
          Except.error Crypto.DecryptError.tagMismatch) ∧
      ∀ pt, Crypto.decrypt (Crypto.generateEncryptionKeys 1).2 ct ≠
        Except.ok pt :=
  c6_wrong_key_rejection 0 1 [1, 2] (fun _ => 0) (by decide)

/-- C9: under a 2048-bit RSA-OAEP key the wrapped AES key occupies exactly
256 bytes and the fixed-offset parse of decrypt (bytes 0..12, 12..268,
268..) recovers exactly the nonce, wrapped key and AES-GCM data that
encrypt concatenated; under any modulus whose byte width is not 256 the
fixed 256-byte slice no longer equals the wrapped key. -/
theorem c9_wrapped_key_offset_consistency :
    (∀ (id : Nat) (p : Bytes) (r : Nat → Nat),
      ∃ wk ct,
        Crypto.rsaOaepEncrypt ⟨id, 2048⟩ (Crypto.bytesFrom r 0 32)
          (Crypto.bytesFrom r 44 256) = some wk ∧
        wk.length = 256 ∧
        Crypto.encrypt (Crypto.generateEncryptionKeys id).1 p r = some ct ∧
        ct.take 12 = Crypto.bytesFrom r 32 12 ∧
        (ct.drop 12).take 256 = wk ∧
        ct.drop 268 = Crypto.aesGcmEncrypt (Crypto.bytesFrom r 0 32)
          (Crypto.bytesFrom r 32 12) p) ∧
    (∀ (kid mb : Nat) (p : Bytes) (r : Nat → Nat) (ct wk : Bytes),
      Crypto.pubModulusBytes ⟨kid, mb⟩ ≠ 256 →
      Crypto.rsaOaepEncrypt ⟨kid, mb⟩ (Crypto.bytesFrom r 0 32)
        (Crypto.bytesFrom r 44 256) = some wk →
      Crypto.encrypt ⟨kid, mb⟩ p r = some ct →
      (ct.drop 12).take 256 ≠ wk) := by
  constructor
  · intro id p r
    obtain ⟨wk, hwk⟩ := Crypto.encrypt_wrap_some id r
    have hwklen : wk.length = 256 := by
      have h2 := Crypto.rsaOaepEncrypt_length ⟨id, 2048⟩
        (Crypto.bytesFrom r 0 32) (Crypto.bytesFrom r 44 256) wk hwk
      rw [h2]
      norm_num [Crypto.pubModulusBytes]
    obtain ⟨hp1, hp2, hp3⟩ := Crypto.parse_concat (Crypto.bytesFrom r 32 12) wk
      (Crypto.aesGcmEncrypt (Crypto.bytesFrom r 0 32)
        (Crypto.bytesFrom r 32 12) p)
      (Crypto.bytesFrom_length r 32 12) hwklen
    refine ⟨wk, Crypto.bytesFrom r 32 12 ++
      (wk ++ Crypto.aesGcmEncrypt (Crypto.bytesFrom r 0 32)
        (Crypto.bytesFrom r 32 12) p), hwk, hwklen, ?_, hp1, hp2, hp3⟩
    rw [Crypto.generateEncryptionKeys_fst]
    exact Crypto.encrypt_of_wrap ⟨id, 2048⟩ p r wk hwk
  · intro kid mb p r ct wk hne hwk hct
    have hctv := Crypto.encrypt_of_wrap ⟨kid, mb⟩ p r wk hwk
    rw [hct] at hctv
    have hceq := Option.some.inj hctv
    subst hceq
    have hwkl := Crypto.rsaOaepEncrypt_length ⟨kid, mb⟩
      (Crypto.bytesFrom r 0 32) (Crypto.bytesFrom r 44 256) wk hwk
    have hdrop : (Crypto.bytesFrom r 32 12 ++
        (wk ++ Crypto.aesGcmEncrypt (Crypto.bytesFrom r 0 32)
          (Crypto.bytesFrom r 32 12) p)).drop 12 =
        wk ++ Crypto.aesGcmEncrypt (Crypto.bytesFrom r 0 32)
          (Crypto.bytesFrom r 32 12) p :=
      List.drop_left' (Crypto.bytesFrom_length r 32 12)
    rw [hdrop]
    intro he
    have hlen := congrArg List.length he
    rw [List.length_take, List.length_append, Crypto.aesGcmEncrypt_length]
      at hlen
    omega

/-- Witness for C9 at a concrete 3072-bit key (384-byte wrapped key): the
fixed 256-byte slice differs from the wrapped key. -/
theorem c9_witness :
    Crypto.pubModulusBytes ⟨0, 3072⟩ ≠ 256 ∧
    ((((Crypto.encrypt ⟨0, 3072⟩ [] (fun _ => 0)).getD []).drop 12).take 256 ≠
      (Crypto.rsaOaepEncrypt ⟨0, 3072⟩ (Crypto.bytesFrom (fun _ => 0) 0 32)
        (Crypto.bytesFrom (fun _ => 0) 44 256)).getD []) :=
  ⟨by decide,
   c9_wrapped_key_offset_consistency.2 0 3072 [] (fun _ => 0)
     ((Crypto.encrypt ⟨0, 3072⟩ [] (fun _ => 0)).getD [])
     ((Crypto.rsaOaepEncrypt ⟨0, 3072⟩ (Crypto.bytesFrom (fun _ => 0) 0 32)
       (Crypto.bytesFrom (fun _ => 0) 44 256)).getD [])
     (by decide) (by rfl) (by rfl)⟩

set_option maxRecDepth 20000 in
/-- C3: the code does not length-prefix any field. encrypt emits the raw
concatenation nonce, wrapped key and AES-GCM data with no 4-byte
big-endian length before any of them, and decrypt slices a hardcoded
256-byte wrapped key: at a concrete 3072-bit key the 384-byte wrapped key
is truncated to 256 bytes and even matching-key decryption fails with
KeyUnwrapFailed. -/
theorem c3_no_length_prefix_fixed_slice :
    ∃ ct wk,
      Crypto.rsaOaepEncrypt ⟨7, 3072⟩ (Crypto.bytesFrom (fun i => i) 0 32)
        (Crypto.bytesFrom (fun i => i) 44 256) = some wk ∧
      Crypto.encrypt ⟨7, 3072⟩ [1, 2, 3] (fun i => i) = some ct ∧
      ct = Crypto.bytesFrom (fun i => i) 32 12 ++
        (wk ++ Crypto.aesGcmEncrypt (Crypto.bytesFrom (fun i => i) 0 32)
          (Crypto.bytesFrom (fun i => i) 32 12) [1, 2, 3]) ∧
      wk.length = 384 ∧
      (ct.drop 12).take 256 = wk.take 256 ∧
      (ct.drop 12).take 256 ≠ wk ∧
      Crypto.decrypt ⟨7, 3072⟩ ct =
        Except.error Crypto.DecryptError.keyUnwrapFailed := by
  refine ⟨(Crypto.encrypt ⟨7, 3072⟩ [1, 2, 3] (fun i => i)).getD [],
    (Crypto.rsaOaepEncrypt ⟨7, 3072⟩ (Crypto.bytesFrom (fun i => i) 0 32)
      (Crypto.bytesFrom (fun i => i) 44 256)).getD [],
    by rfl, by rfl, by rfl, by rfl, by decide, by decide, by rfl⟩

namespace KeyStore

lemma getItem_setItem (s : LocalStorage) (k : String) (v : StoredValue) :
    getItem (setItem s k v) k = some v := by
  unfold setItem getItem
  rw [if_pos rfl]

lemma getItem_removeItem (s : LocalStorage) (k : String) :
    getItem (removeItem s k) k = none := by
  induction s with
  | nil => rfl
  | cons p t ih =>
    obtain ⟨k2, v⟩ := p
    by_cases h : k2 = k
    · unfold removeItem
      rw [if_pos h]
      exact ih
    · unfold removeItem
      rw [if_neg h]
      unfold getItem
      rw [if_neg h]
      exact ih

lemma loadKeyPair_absent (userId : String) (store : LocalStorage)
    (h : getItem store (storageKey userId) = none) :
    loadKeyPair userId store = ⟨none, store, []⟩ := by
  unfold loadKeyPair
  rw [h]

lemma loadKeyPair_corrupted (userId : String) (store : LocalStorage)
    (sv : StoredValue) (hget : getItem store (storageKey userId) = some sv)
    (hbad : recordImports sv = false) :
    loadKeyPair userId store =
      ⟨none, removeItem store (storageKey userId), [corruptLog]⟩ := by
  unfold loadKeyPair
  rw [hget]
  cases sv with
  | junk s => rfl
  | record jp =>
    cases hpub : importKeyRsaOaepSha256 jp.publicKey false with
    | none => simp only [parseStored, hpub]
    | some pk =>
      cases hpriv : importKeyRsaOaepSha256 jp.privateKey true with
      | none => simp only [parseStored, hpub, hpriv]
      | some sk =>
        have hbad2 := hbad
        simp only [recordImports, parseStored] at hbad2
        rw [hpub, hpriv] at hbad2
        simp at hbad2

lemma loadKeyPair_of_imports (userId : String) (store : LocalStorage)
    (jp : JwkKeyPair) (pk sk : CryptoKey)
    (hget : getItem store (storageKey userId) =
      some (StoredValue.record jp))
    (hpub : importKeyRsaOaepSha256 jp.publicKey false = some pk)
    (hpriv : importKeyRsaOaepSha256 jp.privateKey true = some sk) :
    loadKeyPair userId store = ⟨some ⟨pk, sk⟩, store, []⟩ := by
  unfold loadKeyPair
  rw [hget]
  simp only [parseStored, hpub, hpriv]

end KeyStore

/-- C7: a persisted record that fails to parse or that fails the
cryptographic import yields the NotFound result null, the record is deleted
from storage, and a subsequent loadKeyPair for the same principal finds
no record and also returns null. -/
theorem c7_corrupted_record_self_healing (userId : String)
    (store : KeyStore.LocalStorage) (sv : KeyStore.StoredValue)
    (hget : KeyStore.getItem store (KeyStore.storageKey userId) = some sv)
    (hbad : KeyStore.recordImports sv = false) :
    (KeyStore.loadKeyPair userId store).result = none ∧
    KeyStore.getItem (KeyStore.loadKeyPair userId store).store
      (KeyStore.storageKey userId) = none ∧
    (KeyStore.loadKeyPair userId
      (KeyStore.loadKeyPair userId store).store).result = none := by
  have hmain := KeyStore.loadKeyPair_corrupted userId store sv hget hbad
  rw [hmain]
  refine ⟨rfl, KeyStore.getItem_removeItem store (KeyStore.storageKey userId),
    ?_⟩
  rw [KeyStore.loadKeyPair_absent userId _
    (KeyStore.getItem_removeItem store (KeyStore.storageKey userId))]

/-- Witness for C7 at a concrete store holding an unparsable record. -/
theorem c7_witness :
    (KeyStore.loadKeyPair "u"
      [(KeyStore.storageKey "u", KeyStore.StoredValue.junk "bad")]).result =
      none ∧
    KeyStore.getItem
      (KeyStore.loadKeyPair "u"
        [(KeyStore.storageKey "u", KeyStore.StoredValue.junk "bad")]).store
      (KeyStore.storageKey "u") = none ∧
    (KeyStore.loadKeyPair "u"
      (KeyStore.loadKeyPair "u"
        [(KeyStore.storageKey "u",
          KeyStore.StoredValue.junk "bad")]).store).result = none :=
  c7_corrupted_record_self_healing "u"
    [(KeyStore.storageKey "u", KeyStore.StoredValue.junk "bad")]
    (KeyStore.StoredValue.junk "bad") (by rfl) (by rfl)

/-- C8 counterexample: at a concrete store holding a corrupted record the
caller-visible value of loadKeyPair is null, exactly the value the same
call yields on a store with no record at all, so the caller cannot
distinguish a CorruptedKeyRecord from an ordinary NotFound; the
corruption is only written to the internal console log. -/
theorem c8_counterexample :
    (KeyStore.loadKeyPair "u"
      [(KeyStore.storageKey "u", KeyStore.StoredValue.junk "oops")]).result =
      (KeyStore.loadKeyPair "u" []).result ∧
    (KeyStore.loadKeyPair "u"
      [(KeyStore.storageKey "u", KeyStore.StoredValue.junk "oops")]).result =
      none ∧
    (KeyStore.loadKeyPair "u"
      [(KeyStore.storageKey "u", KeyStore.StoredValue.junk "oops")]).log =
      [KeyStore.corruptLog] :=
  ⟨rfl, rfl, rfl⟩

/-- C8 amended: whenever a persisted record exists but fails parse or
fails import, loadKeyPair writes the corruption to the console log and returns
null — the caller receives exactly the ordinary NotFound value, with the
record deleted as a side effect and no distinct CorruptedKeyRecord event
in the returned value. -/
theorem c8_corruption_logged_not_surfaced (userId : String)
    (store : KeyStore.LocalStorage) (sv : KeyStore.StoredValue)
    (hget : KeyStore.getItem store (KeyStore.storageKey userId) = some sv)
    (hbad : KeyStore.recordImports sv = false) :
    (KeyStore.loadKeyPair userId store).result = none ∧
    (KeyStore.loadKeyPair userId store).result =
      (KeyStore.loadKeyPair userId []).result ∧
    (KeyStore.loadKeyPair userId store).log = [KeyStore.corruptLog] ∧
    KeyStore.getItem (KeyStore.loadKeyPair userId store).store
      (KeyStore.storageKey userId) = none := by
  have hmain := KeyStore.loadKeyPair_corrupted userId store sv hget hbad
  rw [hmain]
  exact ⟨rfl, rfl, rfl,
    KeyStore.getItem_removeItem store (KeyStore.storageKey userId)⟩

/-- Witness for the amended C8 at a concrete corrupted store. -/
theorem c8_witness :
    (KeyStore.loadKeyPair "u"
      [(KeyStore.storageKey "u", KeyStore.StoredValue.junk "z")]).result =
      none ∧
    (KeyStore.loadKeyPair "u"
      [(KeyStore.storageKey "u", KeyStore.StoredValue.junk "z")]).result =
      (KeyStore.loadKeyPair "u" []).result ∧
    (KeyStore.loadKeyPair "u"
      [(KeyStore.storageKey "u", KeyStore.StoredValue.junk "z")]).log =
      [KeyStore.corruptLog] ∧
    KeyStore.getItem
      (KeyStore.loadKeyPair "u"
        [(KeyStore.storageKey "u", KeyStore.StoredValue.junk "z")]).store
      (KeyStore.storageKey "u") = none :=
  c8_corruption_logged_not_surfaced "u"
    [(KeyStore.storageKey "u", KeyStore.StoredValue.junk "z")]
    (KeyStore.StoredValue.junk "z") (by rfl) (by rfl)

/-- C10: loadKeyPair always imports with fixed RSA-OAEP/SHA-256 parameters
and the encrypt/decrypt usages, whatever algorithm the saved pair had, so
a persisted RSA-PSS signing pair (generateSigningKeys) fails import and is
treated as corrupted — deleted from storage, null returned, and null again
on a subsequent load — while an RSA-OAEP encryption pair
(generateEncryptionKeys) round-trips intact. -/
theorem c10_loadKeyPair_destroys_signing_pairs (userId : String) (id : Nat)
    (store : KeyStore.LocalStorage) :
    (KeyStore.loadKeyPair userId
      (KeyStore.saveKeyPair userId (KeyStore.generateSigningKeys id)
        store)).result = none ∧
    KeyStore.getItem
      (KeyStore.loadKeyPair userId
        (KeyStore.saveKeyPair userId (KeyStore.generateSigningKeys id)
          store)).store (KeyStore.storageKey userId) = none ∧
    (KeyStore.loadKeyPair userId
      (KeyStore.loadKeyPair userId
        (KeyStore.saveKeyPair userId (KeyStore.generateSigningKeys id)
          store)).store).result = none ∧
    (KeyStore.loadKeyPair userId
      (KeyStore.saveKeyPair userId (KeyStore.generateEncryptionKeys id)
        store)).result = some (KeyStore.generateEncryptionKeys id) := by
  have hget1 : KeyStore.getItem
      (KeyStore.saveKeyPair userId (KeyStore.generateSigningKeys id) store)
      (KeyStore.storageKey userId) =
      some (KeyStore.StoredValue.record
        ⟨KeyStore.exportJwk (KeyStore.generateSigningKeys id).publicKey,
         KeyStore.exportJwk (KeyStore.generateSigningKeys id).privateKey⟩) :=
    KeyStore.getItem_setItem store (KeyStore.storageKey userId) _
  have hmain := KeyStore.loadKeyPair_corrupted userId
    (KeyStore.saveKeyPair userId (KeyStore.generateSigningKeys id) store)
    _ hget1 rfl
  refine ⟨?_, ?_, ?_, ?_⟩
  · rw [hmain]
  · rw [hmain]
    exact KeyStore.getItem_removeItem _ _
  · rw [hmain]
    rw [KeyStore.loadKeyPair_absent userId _
      (KeyStore.getItem_removeItem _ _)]
  · have hget2 : KeyStore.getItem
        (KeyStore.saveKeyPair userId (KeyStore.generateEncryptionKeys id)
          store) (KeyStore.storageKey userId) =
        some (KeyStore.StoredValue.record
          ⟨KeyStore.exportJwk (KeyStore.generateEncryptionKeys id).publicKey,
           KeyStore.exportJwk
             (KeyStore.generateEncryptionKeys id).privateKey⟩) :=
      KeyStore.getItem_setItem store (KeyStore.storageKey userId) _
    rw [KeyStore.loadKeyPair_of_imports userId _ _
      ⟨KeyStore.KeyAlgName.rsaOaep, false, id⟩
      ⟨KeyStore.KeyAlgName.rsaOaep, true, id⟩ hget2 rfl rfl]
    simp only [KeyStore.generateEncryptionKeys]

namespace EnvelopeService

lemma set_ne (l : List Nat) (i v : Nat) (hi : i < l.length)
    (hv : v ≠ l.getD i 0) : l.set i v ≠ l := by
  induction l generalizing i with
  | nil => simp at hi
  | cons a t ih =>
    cases i with
    | zero =>
      simp only [List.set]
      rw [List.getD_cons_zero] at hv
      intro h
      exact hv ((List.cons.injEq _ _ _ _).mp h).1
    | succ n =>
      simp only [List.set]
      rw [List.getD_cons_succ] at hv
      simp only [List.length_cons] at hi
      intro h
      exact ih n (by omega) hv ((List.cons.injEq _ _ _ _).mp h).2

lemma framed_chain_ne (x y B : Bytes) (hlen : x.length = y.length)
    (hne : x ≠ y) : framed x ++ B ≠ framed y ++ B := by
  unfold framed
  rw [hlen]
  intro h
  rw [List.append_assoc, List.append_assoc] at h
  exact hne (List.append_cancel_right (List.append_cancel_left h))

lemma framed_ne (x y : Bytes) (hlen : x.length = y.length) (hne : x ≠ y) :
    framed x ≠ framed y := by
  unfold framed
  rw [hlen]
  intro h
  exact hne (List.append_cancel_left h)

lemma cb_set_ne (e : Envelope) (f : CoveredField) (i v : Nat)
    (hi : i < (coveredField e f).length)
    (hv : v ≠ (coveredField e f).getD i 0) :
    canonicalBytes (setCovered e f i v) ≠ canonicalBytes e := by
  cases f with
  | senderId =>
    simp only [coveredField] at hi hv
    simp only [setCovered, canonicalBytes]
    exact framed_chain_ne _ _ _ (List.length_set _ _ _) (set_ne _ i v hi hv)
  | recipientId =>
    simp only [coveredField] at hi hv
    simp only [setCovered, canonicalBytes]
    intro h
    exact framed_chain_ne _ _ _ (List.length_set _ _ _) (set_ne _ i v hi hv)
      (List.append_cancel_left h)
  | wrappedKey =>
    simp only [coveredField] at hi hv
    simp only [setCovered, canonicalBytes]
    intro h
    exact framed_chain_ne _ _ _ (List.length_set _ _ _) (set_ne _ i v hi hv)
      (List.append_cancel_left (List.append_cancel_left
        (List.append_cancel_left h)))
  | nonce =>
    simp only [coveredField] at hi hv
    simp only [setCovered, canonicalBytes]
    intro h
    exact framed_chain_ne _ _ _ (List.length_set _ _ _) (set_ne _ i v hi hv)
      (List.append_cancel_left (List.append_cancel_left
        (List.append_cancel_left (List.append_cancel_left h))))
  | ciphertext =>
    simp only [coveredField] at hi hv
    simp only [setCovered, canonicalBytes]
    intro h
    exact framed_ne _ _ (List.length_set _ _ _) (set_ne _ i v hi hv)
      (List.append_cancel_left (List.append_cancel_left
        (List.append_cancel_left (List.append_cancel_left
          (List.append_cancel_left h)))))

lemma setCovered_signature (e : Envelope) (f : CoveredField) (i v : Nat) :
    (setCovered e f i v).signature = e.signature := by
  cases f <;> rfl

lemma verify_sign_ne (sk pk : Nat) (d1 d2 : Bytes) (hne : d2 ≠ d1) :
    verify pk (sign sk d1) d2 = false := by
  unfold verify sign
  rw [decide_eq_false]
  intro h
  exact hne (((List.cons.injEq _ _ _ _).mp h).2).symm

lemma openEnvelope_of_verify_false (e : Envelope)
    (priv : Crypto.RsaPrivateKey) (pk : Nat)
    (h : verify pk e.signature (canonicalBytes e) = false) :
    openEnvelope e priv pk = (OpenResult.authenticationFailed, false) := by
  unfold openEnvelope
  rw [h]
  exact if_neg (by simp)

lemma sealEnvelope_signature (p sid rid mid : Bytes)
    (pub : Crypto.RsaPublicKey) (sk : Nat) (r : Nat → Nat) (e : Envelope)
    (hseal : sealEnvelope p sid rid mid pub sk r = some e) :
    e.signature = sign sk (canonicalBytes e) := by
  unfold sealEnvelope at hseal
  cases hwk : Crypto.rsaOaepEncrypt pub (Crypto.bytesFrom r 0 32)
      (Crypto.bytesFrom r 44 256) with
  | none =>
    rw [hwk] at hseal
    simp at hseal
  | some wk =>
    rw [hwk] at hseal
    have he := Option.some.inj hseal
    subst he
    rfl

end EnvelopeService

/-- C2: openEnvelope verifies the signature over the canonical bytes
before anything else. Every envelope whose signature fails verification
yields AuthenticationFailed with no decryption operation attempted (the
boolean of the result records whether a decryption was attempted); in
particular an envelope produced by sealEnvelope with any single byte of
senderId, recipientId, wrappedKey, nonce or ciphertext replaced after
sealing fails verification under every verification key and is rejected
with AuthenticationFailed before any decryption. -/
theorem c2_verify_first_tamper_detection :
    (∀ (e : EnvelopeService.Envelope) (priv : Crypto.RsaPrivateKey)
      (pk : Nat),
      EnvelopeService.verify pk e.signature
        (EnvelopeService.canonicalBytes e) = false →
      EnvelopeService.openEnvelope e priv pk =
        (EnvelopeService.OpenResult.authenticationFailed, false)) ∧
    (∀ (p sid rid mid : Bytes) (pub : Crypto.RsaPublicKey) (sk : Nat)
      (r : Nat → Nat) (e : EnvelopeService.Envelope)
      (f : EnvelopeService.CoveredField) (i v : Nat)
      (priv : Crypto.RsaPrivateKey) (vk : Nat),
      EnvelopeService.sealEnvelope p sid rid mid pub sk r = some e →
      i < (EnvelopeService.coveredField e f).length →
      v ≠ (EnvelopeService.coveredField e f).getD i 0 →
      EnvelopeService.openEnvelope (EnvelopeService.setCovered e f i v) priv
        vk = (EnvelopeService.OpenResult.authenticationFailed, false)) := by
  constructor
  · exact fun e priv pk h =>
      EnvelopeService.openEnvelope_of_verify_false e priv pk h
  · intro p sid rid mid pub sk r e f i v priv vk hseal hi hv
    apply EnvelopeService.openEnvelope_of_verify_false
    rw [EnvelopeService.setCovered_signature,
      EnvelopeService.sealEnvelope_signature p sid rid mid pub sk r e hseal]
    exact EnvelopeService.verify_sign_ne sk vk
      (EnvelopeService.canonicalBytes e)
      (EnvelopeService.canonicalBytes (EnvelopeService.setCovered e f i v))
      (EnvelopeService.cb_set_ne e f i v hi hv)

set_option maxRecDepth 20000 in
/-- Witness for C2: a concrete sealed envelope whose first ciphertext byte
is replaced is rejected with AuthenticationFailed and no decryption
attempt. -/
theorem c2_witness :
    EnvelopeService.openEnvelope
      (EnvelopeService.setCovered
        ((EnvelopeService.sealEnvelope [1] [2] [3] [4] ⟨0, 2048⟩ 5
          (fun _ => 0)).getD ⟨[], [], [], [], [], [], []⟩)
        EnvelopeService.CoveredField.ciphertext 0 99) ⟨0, 2048⟩ 5 =
      (EnvelopeService.OpenResult.authenticationFailed, false) :=
  c2_verify_first_tamper_detection.2 [1] [2] [3] [4] ⟨0, 2048⟩ 5
    (fun _ => 0)
    ((EnvelopeService.sealEnvelope [1] [2] [3] [4] ⟨0, 2048⟩ 5
      (fun _ => 0)).getD ⟨[], [], [], [], [], [], []⟩)
    EnvelopeService.CoveredField.ciphertext 0 99 ⟨0, 2048⟩ 5 (by rfl)
    (by decide) (by decide)

end ActionIntention
